import Mathlib

/-!
Verification development for the `socks2` SOCKS4/4A/5 client library.

The definitions below are a shallow embedding of the library's pure
protocol logic (src/v5.rs, src/v4.rs, src/lib.rs, src/error.rs):
byte streams are `List Nat` (each element a byte value), fallible
operations return `Except`, Rust strings are `List Char` (their UTF-8
bytes are `List Nat`), and machine integers are `Nat` with explicit
`% 256`-style arithmetic where the source converts between widths.
-/

set_option maxRecDepth 8192

namespace Socks2

/-- Big-endian bytes of a 16-bit value, as written by
`WriteBytesExt::write_u16::<BigEndian>`. -/
def u16Bytes (n : Nat) : List Nat := [n / 256 % 256, n % 256]

/-- Big-endian bytes of a 32-bit value, as written by
`WriteBytesExt::write_u32::<BigEndian>`. -/
def u32Bytes (n : Nat) : List Nat :=
  [n / 16777216 % 256, n / 65536 % 256, n / 256 % 256, n % 256]

/-- `std::io::ErrorKind` values used by the `From<Error> for io::Error`
mapping in src/error.rs. -/
inductive IoKind where
  | InvalidInput
  | InvalidData
  | Other
  | ConnectionRefused
  | PermissionDenied
  | ConnectionAborted
  | Interrupted
  | Unsupported
deriving DecidableEq, Repr

/-- The `socks2::Error` enum of src/error.rs.  Field payloads are kept
(`String` fields become `List Char`; the `FromUtf8Error` payload of
`MalformedDomain` is represented by the offending bytes; the
`SocketAddrV6` payload of `Socks4NoIPv6` by its ip bytes, port,
flowinfo and scope id).  `InvalidPassword` carries `Unit` exactly as
the source declares `password: ()`. -/
inductive Error where
  | InvalidSocksAddress (addr : List Char)
  | InvalidPortValue (addr : List Char) (port : List Char)
  | NoResolveSocketAddrs
  | InvalidResponseVersion (version : Nat)
  | UnknownResponseCode (code : Nat)
  | ConnectionRefused (code : Nat)
  | RejectedRequestID (code : Nat)
  | Socks4NoIPv6 (ip : List Nat) (port : Nat) (flowinfo : Nat) (scope : Nat)
  | MalformedDomain (bytes : List Nat)
  | SOCKS5InvalidAddressType (code : Nat)
  | UnknownServerFailure (code : Nat)
  | ServerRefusedByRuleSet
  | ServerNetworkUnreachable
  | ServerHostUnreachable
  | ServerTTLExpired
  | ServerCmdNotSupported
  | ServerAddressNotSupported
  | InvalidReservedByte (byte : Nat)
  | InvalidDomainLength (domain : List Nat) (length : Nat)
  | NoAuthMethods (method : Nat)
  | UnknownAuthMethod (method : Nat)
  | InvalidUsername (username : List Nat) (length : Nat)
  | InvalidPassword (password : Unit) (length : Nat)
  | FailedPasswordAuth
  | InvalidReservedBytes (bytes : Nat)
  | InvalidFragmentID (fid : Nat)
  | WinUDP4GiBLimit (size : Nat)
deriving DecidableEq, Repr

/-- The `io::ErrorKind` chosen for each variant by
`impl From<Error> for io::Error` (src/error.rs lines 145-185). -/
def Error.ioKind : Error → IoKind
  | .InvalidSocksAddress _ => .InvalidInput
  | .InvalidPortValue _ _ => .InvalidInput
  | .NoResolveSocketAddrs => .InvalidInput
  | .InvalidResponseVersion _ => .InvalidData
  | .UnknownResponseCode _ => .Other
  | .ConnectionRefused _ => .ConnectionRefused
  | .RejectedRequestID _ => .PermissionDenied
  | .Socks4NoIPv6 _ _ _ _ => .InvalidInput
  | .MalformedDomain _ => .InvalidData
  | .SOCKS5InvalidAddressType _ => .InvalidData
  | .UnknownServerFailure _ => .Other
  | .ServerRefusedByRuleSet => .ConnectionRefused
  | .ServerNetworkUnreachable => .ConnectionAborted
  | .ServerHostUnreachable => .ConnectionAborted
  | .ServerTTLExpired => .Interrupted
  | .ServerCmdNotSupported => .Unsupported
  | .ServerAddressNotSupported => .Unsupported
  | .InvalidReservedByte _ => .Other
  | .InvalidDomainLength _ _ => .InvalidInput
  | .NoAuthMethods _ => .Unsupported
  | .UnknownAuthMethod _ => .Unsupported
  | .InvalidUsername _ _ => .InvalidInput
  | .InvalidPassword _ _ => .InvalidInput
  | .FailedPasswordAuth => .PermissionDenied
  | .InvalidReservedBytes _ => .InvalidData
  | .InvalidFragmentID _ => .InvalidData
  | .WinUDP4GiBLimit _ => .InvalidInput

/-- An `std::io::Error` as the library observes it: an end-of-input or
write-zero transport error, or a wrapped `socks2::Error`. -/
inductive IoErr where
  | eof
  | writeZero
  | sockErr (e : Error)
deriving DecidableEq, Repr

/-- A `SocketAddr`: `V4` keeps the ip as its `u32` value (the form
`write_addr` converts it to); `V6` keeps the 16 octets plus the
`flowinfo` and `scope_id` fields a `SocketAddrV6` carries. -/
inductive SockAddr where
  | v4 (ip : Nat) (port : Nat)
  | v6 (ip : List Nat) (port : Nat) (flowinfo : Nat) (scope : Nat)
deriving DecidableEq, Repr

/-- `socks2::TargetAddr` (src/lib.rs).  The `Domain` name is kept as
its UTF-8 bytes, which is what both `write_addr` (`domain.as_bytes()`)
and `read_addr` (`String::from_utf8`) operate on. -/
inductive TargetAddr where
  | Ip (addr : SockAddr)
  | Domain (name : List Nat) (port : Nat)
deriving DecidableEq, Repr

/-! ## Byte-stream readers

`read_u8`, `read_u16::<BigEndian>`, `read_u32::<BigEndian>` and
`read_exact` on an in-memory reader.  Reading past the end of the
input is the `UnexpectedEof` I/O error those primitives produce. -/

/-- `ReadBytesExt::read_u8`. -/
def readU8 : List Nat → Except IoErr (Nat × List Nat)
  | [] => .error .eof
  | b :: rest => .ok (b, rest)

/-- `ReadBytesExt::read_u16::<BigEndian>`. -/
def readU16be : List Nat → Except IoErr (Nat × List Nat)
  | b0 :: b1 :: rest => .ok (b0 * 256 + b1, rest)
  | _ => .error .eof

/-- `ReadBytesExt::read_u32::<BigEndian>`. -/
def readU32be : List Nat → Except IoErr (Nat × List Nat)
  | b0 :: b1 :: b2 :: b3 :: rest =>
      .ok (((b0 * 256 + b1) * 256 + b2) * 256 + b3, rest)
  | _ => .error .eof

/-- `Read::read_exact` into a buffer of `n` bytes. -/
def readExact (n : Nat) (s : List Nat) : Except IoErr (List Nat × List Nat) :=
  if s.length < n then .error .eof else .ok (s.take n, s.drop n)

/-! ## UTF-8 validity

`read_addr` runs the received domain bytes through
`String::from_utf8`; this is Rust's UTF-8 validation (shortest-form
encodings only, surrogates excluded). -/

/-- A UTF-8 continuation byte. -/
def utf8Cont (b : Nat) : Bool := 128 ≤ b && b ≤ 191

/-- Rust's `String::from_utf8` validity check on a byte sequence. -/
def utf8Valid : List Nat → Bool
  | [] => true
  | b :: rest =>
    if b ≤ 127 then utf8Valid rest
    else if 194 ≤ b && b ≤ 223 then
      match rest with
      | c :: rest2 => utf8Cont c && utf8Valid rest2
      | [] => false
    else if 224 ≤ b && b ≤ 239 then
      match rest with
      | c1 :: c2 :: rest2 =>
        (if b = 224 then decide (160 ≤ c1 && c1 ≤ 191)
         else if b = 237 then decide (128 ≤ c1 && c1 ≤ 159)
         else utf8Cont c1) && utf8Cont c2 && utf8Valid rest2
      | _ => false
    else if 240 ≤ b && b ≤ 244 then
      match rest with
      | c1 :: c2 :: c3 :: rest2 =>
        (if b = 240 then decide (144 ≤ c1 && c1 ≤ 191)
         else if b = 244 then decide (128 ≤ c1 && c1 ≤ 143)
         else utf8Cont c1) && utf8Cont c2 && utf8Cont c3 && utf8Valid rest2
      | _ => false
    else false

/-! ## SOCKS5 address codec (src/v5.rs `read_addr` / `write_addr`) -/

/-- `read_addr` (src/v5.rs lines 12-39): ATYP byte, then the
ATYP-determined address payload, then the big-endian port.  A `V6`
address is built by `SocketAddrV6::new(ip, port, 0, 0)`, so flowinfo
and scope id come back as zero. -/
def read_addr (s : List Nat) : Except IoErr (TargetAddr × List Nat) := do
  let (atyp, s1) ← readU8 s
  if atyp = 1 then
    let (ip, s2) ← readU32be s1
    let (port, s3) ← readU16be s2
    .ok (.Ip (.v4 ip port), s3)
  else if atyp = 3 then
    let (len, s2) ← readU8 s1
    let (name, s3) ← readExact len s2
    if utf8Valid name then
      let (port, s4) ← readU16be s3
      .ok (.Domain name port, s4)
    else .error (.sockErr (.MalformedDomain name))
  else if atyp = 4 then
    let (ip, s2) ← readExact 16 s1
    let (port, s3) ← readU16be s2
    .ok (.Ip (.v6 ip port 0 0), s3)
  else .error (.sockErr (.SOCKS5InvalidAddressType atyp))

/-- `read_response` (src/v5.rs lines 41-70): version byte must be 5,
then the REP byte is classified, then the reserved byte must be 0,
then the bound address is parsed with `read_addr`. -/
def read_response (s : List Nat) : Except IoErr (TargetAddr × List Nat) := do
  let (version, s1) ← readU8 s
  if version ≠ 5 then .error (.sockErr (.InvalidResponseVersion version)) else
  let (code, s2) ← readU8 s1
  if code = 0 then
    let (byte, s3) ← readU8 s2
    if byte ≠ 0 then .error (.sockErr (.InvalidReservedByte byte))
    else read_addr s3
  else if code = 1 then .error (.sockErr (.UnknownServerFailure 1))
  else if code = 2 then .error (.sockErr .ServerRefusedByRuleSet)
  else if code = 3 then .error (.sockErr .ServerNetworkUnreachable)
  else if code = 4 then .error (.sockErr .ServerHostUnreachable)
  else if code = 5 then .error (.sockErr (.ConnectionRefused 5))
  else if code = 6 then .error (.sockErr .ServerTTLExpired)
  else if code = 7 then .error (.sockErr .ServerCmdNotSupported)
  else if code = 8 then .error (.sockErr .ServerAddressNotSupported)
  else .error (.sockErr (.UnknownServerFailure code))

/-- One `write_all` into a `&mut [u8]` sink of capacity `cap` whose
current contents are `cur`: the `Write` impl for byte slices fails
with a `WriteZero` error when the bytes do not fit. -/
def wput (cap : Nat) (cur : List Nat) (bs : List Nat) : Except IoErr (List Nat) :=
  if cur.length + bs.length ≤ cap then .ok (cur ++ bs) else .error .writeZero

/-- `write_addr` (src/v5.rs lines 72-105) writing into a buffer of
capacity `cap`.  Returns the bytes written into the buffer prefix;
the Rust return value `start_len - packet.len()` is their length.
For a domain, the ATYP byte is written before the length check, and
the check `u8::try_from(len).ok().and_then(|i| if i == 0 ...)` fails
exactly when the length is 0 or above 255. -/
def write_addr (cap : Nat) (target : TargetAddr) : Except IoErr (List Nat) :=
  match target with
  | .Ip (.v4 ip port) => do
      let b ← wput cap [] [1]
      let b ← wput cap b (u32Bytes ip)
      wput cap b (u16Bytes port)
  | .Ip (.v6 ip port _ _) => do
      let b ← wput cap [] [4]
      let b ← wput cap b ip
      wput cap b (u16Bytes port)
  | .Domain name port => do
      let b ← wput cap [] [3]
      if 1 ≤ name.length ∧ name.length ≤ 255 then do
        let b ← wput cap b [name.length]
        let b ← wput cap b name
        wput cap b (u16Bytes port)
      else .error (.sockErr (.InvalidDomainLength name name.length))

/-- `MAX_ADDR_LEN` (src/v5.rs line 10). -/
def MAX_ADDR_LEN : Nat := 260

instance instDecEqExcept {ε α : Type} [DecidableEq ε] [DecidableEq α] :
    DecidableEq (Except ε α)
  | .ok a, .ok b =>
      if h : a = b then .isTrue (by rw [h]) else .isFalse (by simp [h])
  | .error a, .error b =>
      if h : a = b then .isTrue (by rw [h]) else .isFalse (by simp [h])
  | .ok _, .error _ => .isFalse (by simp)
  | .error _, .ok _ => .isFalse (by simp)

/-! ## SOCKS5 method negotiation (src/v5.rs `Socks5Stream::connect_raw`) -/

/-- The `Authentication` enum (src/v5.rs lines 108-115).  Username and
password are kept as their byte strings. -/
inductive Authentication where
  | Password (username : List Nat) (password : List Nat)
  | NoAuth
deriving DecidableEq, Repr

/-- `Authentication::id` (src/v5.rs lines 118-123). -/
def Authentication.id : Authentication → Nat
  | .Password _ _ => 2
  | .NoAuth => 0

/-- `Authentication::is_no_auth` (src/v5.rs lines 125-127). -/
def Authentication.isNoAuth : Authentication → Bool
  | .Password _ _ => false
  | .NoAuth => true

/-- The greeting written by `connect_raw` (src/v5.rs lines 214-221):
the 4-byte array `[5, method count, auth id, 0]` truncated to
`packet_len` (3 when no authentication is configured, 4 otherwise). -/
def negotiationPacket (auth : Authentication) : List Nat :=
  let packetLen := if auth.isNoAuth then 3 else 4
  ([5, if auth.isNoAuth then 1 else 2, auth.id, 0]).take packetLen

/-- What `connect_raw` does after the greeting, given the 2-byte
server reply `(version, selected method)`: either run the
username/password sub-protocol, or proceed without it. -/
inductive AuthAction where
  | runPassword (username : List Nat) (password : List Nat)
  | skip
deriving DecidableEq, Repr

/-- The method-selection step of `connect_raw`
(src/v5.rs lines 223-254): version check, `0xff` check, unknown-method
check, then the `match` with the guard `selected_method == auth.id()`
deciding whether `password_authentication` runs. -/
def negotiate (auth : Authentication) (version method : Nat) :
    Except IoErr AuthAction :=
  if version ≠ 5 then .error (.sockErr (.InvalidResponseVersion version))
  else if method = 255 then .error (.sockErr (.NoAuthMethods method))
  else if method ≠ auth.id ∧ method ≠ Authentication.NoAuth.id then
    .error (.sockErr (.UnknownAuthMethod method))
  else
    match auth with
    | .Password u p =>
        if method = Authentication.id (.Password u p) then .ok (.runPassword u p)
        else .ok .skip
    | .NoAuth => .ok .skip

/-! ## Username/password sub-authentication
(src/v5.rs `Socks5Stream::password_authentication`) -/

/-- `read_response` of src/v4.rs (lines 12-36): reads exactly 8 bytes,
checks the version byte is 0, classifies the code byte, then reads the
bound port and ip. -/
def read_response4 (reply : List Nat) : Except IoErr SockAddr := do
  if reply.length < 8 then .error .eof else
  let r := reply.take 8
  let (version, r1) ← readU8 r
  if version ≠ 0 then .error (.sockErr (.InvalidResponseVersion version)) else
  let (code, r2) ← readU8 r1
  if code = 90 then
    let (port, r3) ← readU16be r2
    let (ip, _) ← readU32be r3
    .ok (.v4 ip port)
  else if code = 91 then .error (.sockErr (.ConnectionRefused 91))
  else if code = 92 then .error (.sockErr (.RejectedRequestID 92))
  else if code = 93 then .error (.sockErr (.RejectedRequestID 93))
  else .error (.sockErr (.UnknownResponseCode code))

/-- The request frame built by `Socks4Stream::connect_raw`
(src/v4.rs lines 101-125): version 4, command, big-endian port, DSTIP,
userid, NUL; for a domain target DSTIP is `0.0.0.1` and the domain
plus a NUL are appended; an IPv6 target aborts with `Socks4NoIPv6`. -/
def socks4Packet (command : Nat) (target : TargetAddr) (userid : List Nat) :
    Except IoErr (List Nat) :=
  match target with
  | .Ip (.v4 ip port) =>
      .ok ([4, command] ++ u16Bytes port ++ u32Bytes ip ++ userid ++ [0])
  | .Ip (.v6 ip port flowinfo scope) =>
      .error (.sockErr (.Socks4NoIPv6 ip port flowinfo scope))
  | .Domain host port =>
      .ok ([4, command] ++ u16Bytes port ++ [0, 0, 0, 1] ++ userid ++ [0]
            ++ host ++ [0])

/-- Observable outcome of `Socks4Stream::connect_raw`: the request
bytes written to the proxy and the handshake result. -/
structure Socks4Outcome where
  sent : List Nat
  result : Except IoErr SockAddr
deriving DecidableEq, Repr

/-- `Socks4Stream::connect_raw` (src/v4.rs lines 87-131) with the
proxy's reply bytes supplied as `reply`: build the packet (nothing is
sent when that fails), send it, then parse the 8-byte reply. -/
def socks4_connect_raw (command : Nat) (target : TargetAddr)
    (userid reply : List Nat) : Socks4Outcome :=
  match socks4Packet command target userid with
  | .error e => ⟨[], .error e⟩
  | .ok packet => ⟨packet, read_response4 reply⟩

/-! ## UDP datagram receive path
(src/v5.rs `Socks5Datagram::recv_from`, lines 576-606) -/

/-- Observable outcome of `recv_from` on one delivered datagram:
the caller's buffer afterwards, the exclusive upper end of the region
the payload-reconstruction writes touch within that buffer
(`header.len() + overflow`, i.e. the end of the `ptr::copy`
destination; 0 when the header parse fails and nothing is written),
and the returned value. -/
structure RecvOutcome where
  buf : List Nat
  writeEnd : Nat
  result : Except IoErr (Nat × TargetAddr)
deriving DecidableEq, Repr

/-- `Socks5Datagram::recv_from` on a single delivered datagram
`dgram`, with caller buffer `buf`.  The scatter `readv` into
`[header, buf]` places the first `min(len, 263)` bytes in the 263-byte
header scratch and the next `overflow = len - 263` (saturating) bytes
at the front of `buf`, where `len = min(dgram.length, 263 + buf.length)`
is the total byte count a datagram socket delivers.  The header slice
`&header[..header_len]` is parsed (reserved u16, fragment id, then
`read_addr`), leaving `rest` unconsumed; then
`ptr::copy(buf, buf + rest.length, overflow)` shifts the spilled
payload right and `buf[..rest.length].copy_from_slice(rest)` moves the
leftover header bytes to the front.  The buffer update is expressed
with `take`/`drop`, which matches the source exactly whenever the
writes are in bounds (`writeEnd ≤ buf.length`). -/
def recv_from (dgram buf : List Nat) : RecvOutcome :=
  let len := min dgram.length (MAX_ADDR_LEN + 3 + buf.length)
  let overflow := len - (MAX_ADDR_LEN + 3)
  let headerLen := min (MAX_ADDR_LEN + 3) len
  let hdr := dgram.take headerLen
  let buf1 := (dgram.drop (MAX_ADDR_LEN + 3)).take overflow ++ buf.drop overflow
  match readU16be hdr with
  | .error e => ⟨buf1, 0, .error e⟩
  | .ok (bytes, s1) =>
    if bytes ≠ 0 then ⟨buf1, 0, .error (.sockErr (.InvalidReservedBytes bytes))⟩
    else match readU8 s1 with
    | .error e => ⟨buf1, 0, .error e⟩
    | .ok (fid, s2) =>
      if fid ≠ 0 then ⟨buf1, 0, .error (.sockErr (.InvalidFragmentID fid))⟩
      else match read_addr s2 with
      | .error e => ⟨buf1, 0, .error e⟩
      | .ok (addr, rest) =>
        let rem := rest.length
        let buf2 := buf1.take rem ++ buf1.take overflow
                      ++ buf1.drop (rem + overflow)
        let buf3 := rest ++ buf2.drop rem
        ⟨buf3, rem + overflow, .ok (rem + overflow, addr)⟩

/-! ## Text target parsing (src/lib.rs `ToTargetAddr`)

`<&str as ToTargetAddr>::to_target_addr` leans on Rust std's `FromStr`
for `SocketAddrV4`, `SocketAddrV6`, `Ipv4Addr`, `Ipv6Addr` and `u16`.
The next definitions model that std parser (core/src/net/parser.rs and
integer `from_str_radix`): a parse step consumes characters from a
`List Char` and rolls back entirely on failure. -/

/-- `char::to_digit` value (sentinel 99 when the character names no
digit in any radix up to 36). -/
def charDigitVal (c : Char) : Nat :=
  if 48 ≤ c.toNat ∧ c.toNat ≤ 57 then c.toNat - 48
  else if 97 ≤ c.toNat ∧ c.toNat ≤ 122 then c.toNat - 97 + 10
  else if 65 ≤ c.toNat ∧ c.toNat ≤ 90 then c.toNat - 65 + 10
  else 99

/-- `c.to_digit(radix).is_some()`. -/
def isRadixDigit (radix : Nat) (c : Char) : Bool := charDigitVal c < radix

/-- Value of a digit string read most-significant first. -/
def digitsVal (radix : Nat) (ds : List Char) : Nat :=
  ds.foldl (fun a c => a * radix + charDigitVal c) 0

/-- std's `Parser::read_number(radix, max_digits, allow_zero_prefix)`
accumulating into an integer of maximum value `maxVal`.  The source's
digit loop consumes the maximal digit prefix; its step-wise
`checked_mul`/`checked_add` against `maxVal` fails exactly when the
full prefix value exceeds `maxVal` (the accumulator grows monotonically
with each digit), and a digit count above `max_digits` or a forbidden
leading zero also fail. -/
def readNumber (radix maxVal : Nat) (maxDigits : Option Nat)
    (allowZeroPrefix : Bool) (cs : List Char) : Option (Nat × List Char) :=
  let ds := cs.takeWhile (isRadixDigit radix)
  let rest := cs.dropWhile (isRadixDigit radix)
  if ds.length = 0 then none
  else if (match maxDigits with | some m => decide (m < ds.length) | none => false) then none
  else if maxVal < digitsVal radix ds then none
  else if ¬allowZeroPrefix ∧ ds.headI = '0' ∧ 1 < ds.length then none
  else some (digitsVal radix ds, rest)

/-- std's `Parser::read_given_char`. -/
def readGivenChar (c : Char) : List Char → Option (List Char)
  | [] => none
  | x :: rest => if x = c then some rest else none

/-- std's `Parser::read_ipv4_addr`: four octets (each
`read_number(10, Some(3), false)` into a `u8`) separated by dots. -/
def read_ipv4_addr (cs : List Char) : Option ((Nat × Nat × Nat × Nat) × List Char) := do
  let (a, cs1) ← readNumber 10 255 (some 3) false cs
  let cs2 ← readGivenChar '.' cs1
  let (b, cs3) ← readNumber 10 255 (some 3) false cs2
  let cs4 ← readGivenChar '.' cs3
  let (c, cs5) ← readNumber 10 255 (some 3) false cs4
  let cs6 ← readGivenChar '.' cs5
  let (d, cs7) ← readNumber 10 255 (some 3) false cs6
  some ((a, b, c, d), cs7)

/-- The group loop of std's `Parser::read_ipv6_addr` (`read_groups`):
reads up to `remaining` 16-bit hex groups, colon-separated (`first`
marks the loop head, where no separator is read); while at least two
slots remain it first tries a trailing embedded IPv4 address, which
fills two groups and stops the loop.  Returns the groups read, whether
an embedded IPv4 was consumed, and the rest of the input. -/
def readGroupsAux : Bool → Nat → List Char → (List Nat × Bool × List Char)
  | _, 0, cs => ([], false, cs)
  | first, r + 1, cs =>
    match (if first then some cs else readGivenChar ':' cs) with
    | none => ([], false, cs)
    | some cs1 =>
      match (if 1 ≤ r then read_ipv4_addr cs1 else none) with
      | some ((a, b, c, d), cs2) => ([a * 256 + b, c * 256 + d], true, cs2)
      | none =>
        match readNumber 16 65535 (some 4) true cs1 with
        | none => ([], false, cs)
        | some (g, cs2) =>
          let (gs, flag, cs3) := readGroupsAux false r cs2
          (g :: gs, flag, cs3)

/-- std's `Parser::read_ipv6_addr`: a head run of groups; 8 groups is
a complete address; otherwise an embedded IPv4 before `::` is
rejected, `::` is consumed, and a tail run of at most
`8 - (head + 1)` groups fills the low slots with zeros in between. -/
def read_ipv6_addr (cs : List Char) : Option (List Nat × List Char) :=
  let (head, headIpv4, cs1) := readGroupsAux true 8 cs
  if head.length = 8 then some (head, cs1)
  else if headIpv4 then none
  else
    match readGivenChar ':' cs1 with
    | none => none
    | some cs2 =>
      match readGivenChar ':' cs2 with
      | none => none
      | some cs3 =>
        let limit := 8 - (head.length + 1)
        let (tail, _, cs4) := readGroupsAux true limit cs3
        some (head ++ List.replicate (8 - head.length - tail.length) 0 ++ tail, cs4)

/-- std's `Parser::read_port`: a colon then
`read_number(10, None, true)` into a `u16`. -/
def readPort (cs : List Char) : Option (Nat × List Char) := do
  let cs1 ← readGivenChar ':' cs
  readNumber 10 65535 none true cs1

/-- Big-endian `u32` value of four octets. -/
def octetsToU32 (a b c d : Nat) : Nat := ((a * 256 + b) * 256 + c) * 256 + d

/-- The 16 address bytes of eight 16-bit groups. -/
def groupsToBytes (gs : List Nat) : List Nat :=
  (gs.map fun g => [g / 256, g % 256]).flatten

/-- `"…".parse::<Ipv4Addr>()`: `read_ipv4_addr` consuming the whole
string, as the big-endian `u32` the library converts the address to. -/
def parseIpv4 (cs : List Char) : Option Nat :=
  match read_ipv4_addr cs with
  | some ((a, b, c, d), []) => some (octetsToU32 a b c d)
  | _ => none

/-- `"…".parse::<Ipv6Addr>()`: `read_ipv6_addr` consuming the whole
string, as 16 address bytes. -/
def parseIpv6 (cs : List Char) : Option (List Nat) :=
  match read_ipv6_addr cs with
  | some (gs, []) => some (groupsToBytes gs)
  | _ => none

/-- `"…".parse::<SocketAddrV4>()`: IPv4 address, then port, then end
of input. -/
def parseSocketAddrV4 (cs : List Char) : Option (Nat × Nat) :=
  match read_ipv4_addr cs with
  | some ((a, b, c, d), cs1) =>
    match readPort cs1 with
    | some (port, []) => some (octetsToU32 a b c d, port)
    | _ => none
  | none => none

/-- `"…".parse::<SocketAddrV6>()`: `[`, IPv6 address, optional
`%scope_id` (`read_number(10, None, true)` into a `u32`), `]`, port,
end of input.  Yields the 16 address bytes, the port and the scope id
(flowinfo of a parsed `SocketAddrV6` is zero). -/
def parseSocketAddrV6 (cs : List Char) : Option (List Nat × Nat × Nat) :=
  match readGivenChar '[' cs with
  | none => none
  | some cs1 =>
    match read_ipv6_addr cs1 with
    | none => none
    | some (gs, cs2) =>
      let scopeStep : Option (Nat × List Char) := do
        let s ← readGivenChar '%' cs2
        readNumber 10 4294967295 none true s
      let (scope, cs3) :=
        match scopeStep with
        | some (sc, rest) => (sc, rest)
        | none => (0, cs2)
      match readGivenChar ']' cs3 with
      | none => none
      | some cs4 =>
        match readPort cs4 with
        | some (port, []) => some (groupsToBytes gs, port, scope)
        | _ => none

/-- Digit run of `u16::from_str` after the optional sign: all
characters must be decimal digits; a positive number must fit in a
`u16`; a negative one only parses when every accumulation step of
`0 - digit` stays at zero, i.e. when the value is zero. -/
def parseU16core (positive : Bool) (ds : List Char) : Option Nat :=
  if ds.length = 0 then none
  else if ¬ ds.all (isRadixDigit 10) then none
  else if positive then
    if digitsVal 10 ds ≤ 65535 then some (digitsVal 10 ds) else none
  else
    if digitsVal 10 ds = 0 then some 0 else none

/-- `"…".parse::<u16>()` (`from_str_radix` base 10 with optional
leading sign). -/
def parseU16 (cs : List Char) : Option Nat :=
  match cs with
  | c :: ds =>
    if c = '+' then parseU16core true ds
    else if c = '-' then parseU16core false ds
    else parseU16core true cs
  | [] => parseU16core true []

/-- `s.rsplitn(2, ':')` as consumed by src/lib.rs lines 164-177:
the first component is the text after the last `:`, the second is
`some` of the text before it, or `none` when `s` has no `:`. -/
def rsplit2 (sep : Char) : List Char → (List Char × Option (List Char))
  | [] => ([], none)
  | c :: rest =>
    match rsplit2 sep rest with
    | (r, some l) => (r, some (c :: l))
    | (r, none) => if c = sep then (r, some []) else (c :: r, none)

/-- UTF-8 bytes of one character (`str::as_bytes` elementwise). -/
def utf8EncodeChar (c : Char) : List Nat :=
  let n := c.toNat
  if n < 128 then [n]
  else if n < 2048 then [192 + n / 64, 128 + n % 64]
  else if n < 65536 then [224 + n / 4096, 128 + n / 64 % 64, 128 + n % 64]
  else [240 + n / 262144, 128 + n / 4096 % 64, 128 + n / 64 % 64, 128 + n % 64]

/-- `str::as_bytes` of a string. -/
def strBytes (cs : List Char) : List Nat := (cs.map utf8EncodeChar).flatten

/-- `<(&str, u16) as ToTargetAddr>::to_target_addr`
(src/lib.rs lines 137-150): try the host as a bare IPv4 literal, then
as a bare IPv6 literal, else it is a domain. -/
def hostPortToTargetAddr (host : List Char) (port : Nat) : Except IoErr TargetAddr :=
  match parseIpv4 host with
  | some ip => .ok (.Ip (.v4 ip port))
  | none =>
    match parseIpv6 host with
    | some ip => .ok (.Ip (.v6 ip port 0 0))
    | none => .ok (.Domain (strBytes host) port)

/-- `<&str as ToTargetAddr>::to_target_addr` (src/lib.rs lines
152-189): a literal `SocketAddrV4` or `SocketAddrV6` wins; otherwise
split at the rightmost `:` (no colon is `InvalidSocksAddress`), the
right side must parse as a `u16` (`InvalidPortValue` otherwise), and
the pair is resolved by `hostPortToTargetAddr`. -/
def strToTargetAddr (s : List Char) : Except IoErr TargetAddr :=
  match parseSocketAddrV4 s with
  | some (ip, port) => .ok (.Ip (.v4 ip port))
  | none =>
  match parseSocketAddrV6 s with
  | some (ip, port, scope) => .ok (.Ip (.v6 ip port 0 scope))
  | none =>
    match rsplit2 ':' s with
    | (_, none) => .error (.sockErr (.InvalidSocksAddress s))
    | (portStr, some host) =>
      match parseU16 portStr with
      | none => .error (.sockErr (.InvalidPortValue s portStr))
      | some port => hostPortToTargetAddr host port

/-! # Theorems -/

/-- A `write_all` that fits the sink succeeds. -/
theorem wput_ok (cap : Nat) (cur bs : List Nat)
    (h : cur.length + bs.length ≤ cap) : wput cap cur bs = .ok (cur ++ bs) := by
  simp [wput, h]

/-- C4 (counterexample): converting `Error::InvalidReservedByte` into
an `io::Error` yields kind *other*, not *invalid-data* as the claim
states for it. -/
theorem c4_reserved_byte_kind_cex :
    (Error.InvalidReservedByte 0).ioKind = IoKind.Other ∧
    (Error.InvalidReservedByte 0).ioKind ≠ IoKind.InvalidData := by
  decide

/-- C4 (amended): of the six listed protocol-error variants, the five
variants `InvalidResponseVersion`, `MalformedDomain`,
`SOCKS5InvalidAddressType`, `InvalidReservedBytes` and
`InvalidFragmentID` convert into transport errors of kind
*invalid-data*, while `InvalidReservedByte` converts to kind *other*. -/
theorem c4_invalid_data_kinds (version code byte bytes fid : Nat)
    (dbytes : List Nat) :
    (Error.InvalidResponseVersion version).ioKind = IoKind.InvalidData ∧
    (Error.MalformedDomain dbytes).ioKind = IoKind.InvalidData ∧
    (Error.SOCKS5InvalidAddressType code).ioKind = IoKind.InvalidData ∧
    (Error.InvalidReservedBytes bytes).ioKind = IoKind.InvalidData ∧
    (Error.InvalidFragmentID fid).ioKind = IoKind.InvalidData ∧
    (Error.InvalidReservedByte byte).ioKind = IoKind.Other := by
  exact ⟨rfl, rfl, rfl, rfl, rfl, rfl⟩

/-- C9: encoding a `Domain` target through `write_addr` (with the
`MAX_ADDR_LEN`-sized buffer every call site provides) succeeds exactly
when the name's byte length `d` is in `1..=255`, writing
`[3, d] ++ name ++ port` (so the returned byte count is `4 + d`), and
fails with `InvalidDomainLength` exactly when `d = 0` or `d > 255`. -/
theorem c9_write_addr_domain_length (name : List Nat) (port : Nat) :
    (1 ≤ name.length ∧ name.length ≤ 255 →
      write_addr MAX_ADDR_LEN (.Domain name port) =
        .ok ([3, name.length] ++ name ++ u16Bytes port) ∧
      ([3, name.length] ++ name ++ u16Bytes port).length = 4 + name.length) ∧
    (name.length = 0 ∨ 255 < name.length →
      write_addr MAX_ADDR_LEN (.Domain name port) =
        .error (.sockErr (.InvalidDomainLength name name.length))) := by
  constructor
  · intro h
    have e1 : wput 260 [] [3] = .ok [3] := wput_ok 260 [] [3] (by simp)
    have e2 : wput 260 [3] [name.length] = .ok [3, name.length] :=
      wput_ok 260 [3] [name.length] (by simp)
    have e3 : wput 260 [3, name.length] name = .ok ([3, name.length] ++ name) :=
      wput_ok 260 [3, name.length] name (by simp; omega)
    have e4 : wput 260 (3 :: name.length :: name) (u16Bytes port) =
        .ok (3 :: name.length :: (name ++ u16Bytes port)) :=
      wput_ok 260 (3 :: name.length :: name) (u16Bytes port)
        (by simp [u16Bytes]; omega)
    constructor
    · simp [write_addr, MAX_ADDR_LEN, e1, e2, e3, e4, h, bind, Except.bind]
    · simp only [List.length_append, List.length_cons, List.length_nil, u16Bytes]
      omega
  · intro h
    have h' : ¬(1 ≤ name.length ∧ name.length ≤ 255) := by omega
    simp [write_addr, wput, MAX_ADDR_LEN, h', bind, Except.bind]

/-- C9 witness: a 1-byte domain encodes, an empty domain fails. -/
theorem c9_write_addr_domain_length_witness :
    write_addr MAX_ADDR_LEN (.Domain [97] 80) = .ok [3, 1, 97, 0, 80] ∧
    write_addr MAX_ADDR_LEN (.Domain [] 80) =
      .error (.sockErr (.InvalidDomainLength [] 0)) := by
  refine ⟨?_, ?_⟩
  · have h := (c9_write_addr_domain_length [97] 80).1 (by decide)
    simpa using h.1
  · have h := (c9_write_addr_domain_length [] 80).2 (by decide)
    simpa using h

/-- C5: the SOCKS5 greeting is `[5, 1, 0]` without configured
authentication and `[5, 2, 2, 0]` with a username/password; a selected
method of `0xff` fails with `NoAuthMethods`, one that is neither the
configured id nor `0` fails with `UnknownAuthMethod`, the selected id
`2` runs the password sub-protocol, and selected `0` skips it even
though a password was configured. -/
theorem c5_negotiation (u p : List Nat) (m : Nat) :
    negotiationPacket .NoAuth = [5, 1, 0] ∧
    negotiationPacket (.Password u p) = [5, 2, 2, 0] ∧
    (∀ auth : Authentication,
      negotiate auth 5 255 = .error (.sockErr (.NoAuthMethods 255))) ∧
    (m ≠ 255 → m ≠ 2 → m ≠ 0 →
      negotiate (.Password u p) 5 m =
        .error (.sockErr (.UnknownAuthMethod m))) ∧
    (m ≠ 255 → m ≠ 0 →
      negotiate .NoAuth 5 m = .error (.sockErr (.UnknownAuthMethod m))) ∧
    negotiate (.Password u p) 5 2 = .ok (.runPassword u p) ∧
    negotiate (.Password u p) 5 0 = .ok .skip ∧
    negotiate .NoAuth 5 0 = .ok .skip ∧
    negotiate .NoAuth 5 2 = .error (.sockErr (.UnknownAuthMethod 2)) ∧
    (∀ m2 : Nat, ∀ act : AuthAction,
      negotiate .NoAuth 5 m2 = .ok act → act = .skip) ∧
    (∀ m2 : Nat, ∀ act : AuthAction,
      negotiate (.Password u p) 5 m2 = .ok act →
        (act = .runPassword u p ↔ m2 = 2)) := by
  refine ⟨rfl, rfl, ?_, ?_, ?_, ?_, ?_, ?_, ?_, ?_, ?_⟩
  · intro auth
    cases auth <;> simp [negotiate, Authentication.id]
  · intro h255 h2 h0
    simp [negotiate, Authentication.id, h255, h2, h0]
  · intro h255 h0
    simp [negotiate, Authentication.id, h255, h0]
  · simp [negotiate, Authentication.id]
  · simp [negotiate, Authentication.id]
  · simp [negotiate, Authentication.id]
  · simp [negotiate, Authentication.id]
  · intro m2 act hact
    simp only [negotiate, Authentication.id] at hact
    split_ifs at hact with g1 g2 g3
    exact (Except.ok.inj hact).symm
  · intro m2 act hact
    simp only [negotiate, Authentication.id] at hact
    split_ifs at hact with g1 g2 g3 g4
    · obtain rfl := (Except.ok.inj hact)
      simp [g4]
    · obtain rfl := (Except.ok.inj hact)
      simp [g4]

/-- C5 witness at method 5 with both configurations, and method 2 with
a configured password. -/
theorem c5_negotiation_witness :
    negotiate (.Password [1] [2]) 5 5 =
      .error (.sockErr (.UnknownAuthMethod 5)) ∧
    negotiate .NoAuth 5 5 = .error (.sockErr (.UnknownAuthMethod 5)) ∧
    negotiate (.Password [1] [2]) 5 2 = .ok (.runPassword [1] [2]) :=
  ⟨(c5_negotiation [1] [2] 5).2.2.2.1 (by decide) (by decide) (by decide),
   (c5_negotiation [1] [2] 5).2.2.2.2.1 (by decide) (by decide),
   (c5_negotiation [1] [2] 5).2.2.2.2.2.1⟩

/-- C8: a SOCKS5 reply with version 5 is classified on its REP byte:
`0` proceeds to the reserved byte and `read_addr`, and every nonzero
byte fails with the listed error, `UnknownServerFailure` for `1` and
for everything above `8`. -/
theorem c8_rep_classification (b : Nat) (rest rest2 : List Nat)
    (hb : b ≠ 0) :
    read_response (5 :: 0 :: 0 :: rest2) = read_addr rest2 ∧
    read_response (5 :: b :: rest) = .error (.sockErr (
      if b = 1 then .UnknownServerFailure 1
      else if b = 2 then .ServerRefusedByRuleSet
      else if b = 3 then .ServerNetworkUnreachable
      else if b = 4 then .ServerHostUnreachable
      else if b = 5 then .ConnectionRefused 5
      else if b = 6 then .ServerTTLExpired
      else if b = 7 then .ServerCmdNotSupported
      else if b = 8 then .ServerAddressNotSupported
      else .UnknownServerFailure b)) := by
  constructor
  · simp [read_response, readU8, bind, Except.bind]
  · rcases b with _ | _ | _ | _ | _ | _ | _ | _ | _ | n
    · exact absurd rfl hb
    · simp [read_response, readU8, bind, Except.bind]
    · simp [read_response, readU8, bind, Except.bind]
    · simp [read_response, readU8, bind, Except.bind]
    · simp [read_response, readU8, bind, Except.bind]
    · simp [read_response, readU8, bind, Except.bind]
    · simp [read_response, readU8, bind, Except.bind]
    · simp [read_response, readU8, bind, Except.bind]
    · simp [read_response, readU8, bind, Except.bind]
    · have k0 : n + 9 ≠ 0 := by omega
      have k1 : n + 9 ≠ 1 := by omega
      have k2 : n + 9 ≠ 2 := by omega
      have k3 : n + 9 ≠ 3 := by omega
      have k4 : n + 9 ≠ 4 := by omega
      have k5 : n + 9 ≠ 5 := by omega
      have k6 : n + 9 ≠ 6 := by omega
      have k7 : n + 9 ≠ 7 := by omega
      have k8 : n + 9 ≠ 8 := by omega
      simp [read_response, readU8, bind, Except.bind,
        k0, k1, k2, k3, k4, k5, k6, k7, k8]

/-- C8 witness: REP byte 9 is an unknown server failure, and REP 0
proceeds to address parsing. -/
theorem c8_rep_classification_witness :
    read_response [5, 0, 0] = read_addr [] ∧
    read_response [5, 9] = .error (.sockErr (.UnknownServerFailure 9)) := by
  have h := c8_rep_classification 9 [] [] (by decide)
  exact ⟨h.1, by simpa using h.2⟩

/-- C6: the SOCKS4 request for an IPv4 target is version 4, the
command, the big-endian port, the 4 ip octets, the userid and a NUL
with no domain block; for a domain target DSTIP is `0.0.0.1` followed
by userid, NUL, domain, NUL — reproducing scenario S2's bytes for
`example.com:80` with userid `"u"` — and an IPv6 target fails with
`Socks4NoIPv6` with no request sent. -/
theorem c6_socks4_request (command ip port port6 flow6 scope6 : Nat)
    (userid host reply ip6 : List Nat) :
    socks4Packet command (.Ip (.v4 ip port)) userid =
      .ok ([4, command] ++ u16Bytes port ++ u32Bytes ip ++ userid ++ [0]) ∧
    socks4Packet command (.Domain host port) userid =
      .ok ([4, command] ++ u16Bytes port ++ [0, 0, 0, 1] ++ userid ++ [0]
            ++ host ++ [0]) ∧
    socks4_connect_raw 1
        (.Domain [101, 120, 97, 109, 112, 108, 101, 46, 99, 111, 109] 80)
        [117] [0, 90, 0, 80, 0, 0, 0, 0] =
      ⟨[4, 1, 0, 80, 0, 0, 0, 1, 117, 0,
        101, 120, 97, 109, 112, 108, 101, 46, 99, 111, 109, 0],
       .ok (.v4 0 80)⟩ ∧
    socks4_connect_raw command (.Ip (.v6 ip6 port6 flow6 scope6)) userid reply =
      ⟨[], .error (.sockErr (.Socks4NoIPv6 ip6 port6 flow6 scope6))⟩ := by
  refine ⟨rfl, rfl, by decide, rfl⟩

/-! ## C3: address codec round-trip -/

/-- A `TargetAddr` value the Rust type can hold: the `u32` ip and
`u16` ports in range, a 16-octet IPv6 address, a domain that is a
nonempty valid-UTF-8 `String` of at most 255 bytes. -/
def validTarget : TargetAddr → Bool
  | .Ip (.v4 ip port) => ip < 4294967296 && port < 65536
  | .Ip (.v6 ip port _ _) =>
      ip.length = 16 && ip.all (· < 256) && port < 65536
  | .Domain name port =>
      1 ≤ name.length && name.length ≤ 255 && utf8Valid name && port < 65536

/-- Whether an IPv6 target carries zero `flowinfo` and `scope_id`
(the two `SocketAddrV6` fields the wire format cannot carry). -/
def zeroV6Extras : TargetAddr → Bool
  | .Ip (.v6 _ _ flowinfo scope) => flowinfo = 0 && scope = 0
  | _ => true

/-- Reading back big-endian bytes of a `u16`. -/
theorem readU16be_u16Bytes (n : Nat) (rest : List Nat) (h : n < 65536) :
    readU16be (u16Bytes n ++ rest) = .ok (n, rest) := by
  simp [readU16be, u16Bytes]
  omega

/-- Reading back big-endian bytes of a `u32`. -/
theorem readU32be_u32Bytes (n : Nat) (rest : List Nat) (h : n < 4294967296) :
    readU32be (u32Bytes n ++ rest) = .ok (n, rest) := by
  simp [readU32be, u32Bytes]
  omega

/-- `read_exact` recovers a known-length prefix. -/
theorem readExact_append (pre rest : List Nat) :
    readExact pre.length (pre ++ rest) = .ok (pre, rest) := by
  simp [readExact, List.take_left, List.drop_left]

/-- C3 (counterexample): the IPv6 target with scope id 1 is a valid
`TargetAddr`, but encoding and decoding it yields the address with
scope id 0, which is a different value — the claim's unqualified
"for every valid TargetAddr t" fails. -/
theorem c3_roundtrip_cex :
    validTarget (.Ip (.v6 (List.replicate 16 0) 80 0 1)) = true ∧
    (match write_addr MAX_ADDR_LEN (.Ip (.v6 (List.replicate 16 0) 80 0 1)) with
     | .ok bs => read_addr bs
     | .error e => .error e) =
      .ok (.Ip (.v6 (List.replicate 16 0) 80 0 0), []) ∧
    TargetAddr.Ip (.v6 (List.replicate 16 0) 80 0 0) ≠
      .Ip (.v6 (List.replicate 16 0) 80 0 1) := by
  decide

/-- C3 (amended): for every valid `TargetAddr` whose IPv6 `flowinfo`
and `scope_id` (fields the SOCKS5 wire format does not carry) are
zero, `write_addr` succeeds and `read_addr` on the produced bytes
returns exactly the original target with no bytes left over; in
particular the `Domain` round-trip preserves the name bytes and the
port. -/
theorem c3_roundtrip (t : TargetAddr) (hv : validTarget t = true)
    (hz : zeroV6Extras t = true) :
    ∃ bs, write_addr MAX_ADDR_LEN t = .ok bs ∧ read_addr bs = .ok (t, []) := by
  match t with
  | .Ip (.v4 ip port) =>
    simp [validTarget] at hv
    obtain ⟨hip, hport⟩ := hv
    refine ⟨[1] ++ u32Bytes ip ++ u16Bytes port, ?_, ?_⟩
    · have e1 : wput 260 [] [1] = .ok [1] := wput_ok 260 [] [1] (by simp)
      have e2 : wput 260 [1] (u32Bytes ip) = .ok ([1] ++ u32Bytes ip) :=
        wput_ok 260 [1] (u32Bytes ip) (by simp [u32Bytes])
      have e3 : wput 260 ([1] ++ u32Bytes ip) (u16Bytes port) =
          .ok ([1] ++ u32Bytes ip ++ u16Bytes port) :=
        wput_ok 260 ([1] ++ u32Bytes ip) (u16Bytes port)
          (by simp [u32Bytes, u16Bytes])
      simp only [write_addr, MAX_ADDR_LEN, bind, Except.bind, e1, e2, e3]
    · have r16 : readU16be (u16Bytes port) = .ok (port, []) := by
        simpa using readU16be_u16Bytes port [] hport
      have r32 : readU32be (u32Bytes ip ++ u16Bytes port) =
          .ok (ip, u16Bytes port) := readU32be_u32Bytes ip (u16Bytes port) hip
      simp [read_addr, readU8, bind, Except.bind, r32, r16]
  | .Ip (.v6 ip port flowinfo scope) =>
    simp [validTarget] at hv
    simp [zeroV6Extras] at hz
    obtain ⟨⟨hlen, _⟩, hport⟩ := hv
    obtain ⟨hf, hs⟩ := hz
    subst hf hs
    refine ⟨[4] ++ ip ++ u16Bytes port, ?_, ?_⟩
    · have e1 : wput 260 [] [4] = .ok [4] := wput_ok 260 [] [4] (by simp)
      have e2 : wput 260 [4] ip = .ok ([4] ++ ip) :=
        wput_ok 260 [4] ip (by simp [hlen])
      have e3 : wput 260 ([4] ++ ip) (u16Bytes port) =
          .ok ([4] ++ ip ++ u16Bytes port) :=
        wput_ok 260 ([4] ++ ip) (u16Bytes port) (by simp [hlen, u16Bytes])
      simp only [write_addr, MAX_ADDR_LEN, bind, Except.bind, e1, e2, e3]
    · have r16 : readU16be (u16Bytes port) = .ok (port, []) := by
        simpa using readU16be_u16Bytes port [] hport
      have e16 : readExact 16 (ip ++ u16Bytes port) = .ok (ip, u16Bytes port) := by
        have := readExact_append ip (u16Bytes port)
        rwa [hlen] at this
      simp [read_addr, readU8, bind, Except.bind, e16, r16]
  | .Domain name port =>
    simp [validTarget] at hv
    obtain ⟨⟨⟨h1, h255⟩, hutf⟩, hport⟩ := hv
    refine ⟨3 :: name.length :: (name ++ u16Bytes port), ?_, ?_⟩
    · have e1 : wput 260 [] [3] = .ok [3] := wput_ok 260 [] [3] (by simp)
      have e2 : wput 260 [3] [name.length] = .ok [3, name.length] :=
        wput_ok 260 [3] [name.length] (by simp)
      have e3 : wput 260 [3, name.length] name =
          .ok ([3, name.length] ++ name) :=
        wput_ok 260 [3, name.length] name (by simp; omega)
      have e4 : wput 260 (3 :: name.length :: name) (u16Bytes port) =
          .ok (3 :: name.length :: (name ++ u16Bytes port)) :=
        wput_ok 260 (3 :: name.length :: name) (u16Bytes port)
          (by simp [u16Bytes]; omega)
      have hlen : 1 ≤ name.length ∧ name.length ≤ 255 := ⟨h1, h255⟩
      simp [write_addr, MAX_ADDR_LEN, bind, Except.bind, e1, e2, e3, e4, hlen]
    · have r16 : readU16be (u16Bytes port) = .ok (port, []) := by
        simpa using readU16be_u16Bytes port [] hport
      simp [read_addr, readU8, bind, Except.bind,
        readExact_append name (u16Bytes port), hutf, r16]

/-- C3 witness: round-trip of a concrete IPv4 target. -/
theorem c3_roundtrip_witness :
    ∃ bs, write_addr MAX_ADDR_LEN (.Ip (.v4 16909060 80)) = .ok bs ∧
      read_addr bs = .ok (.Ip (.v4 16909060 80), []) :=
  c3_roundtrip (.Ip (.v4 16909060 80)) (by decide) (by decide)

/-! ## C1/C2: UDP receive path -/

/-- A successfully parsed address field of real bytes is at most 259
bytes long (ATYP + at most 1+255 address bytes + port), and
`read_addr` consumes exactly that field no matter what bytes follow
it. -/
theorem read_addr_exact (s : List Nat) (a : TargetAddr)
    (hbytes : ∀ b ∈ s, b < 256)
    (h : read_addr s = .ok (a, [])) :
    s.length ≤ 259 ∧ ∀ t, read_addr (s ++ t) = .ok (a, t) := by
  rcases s with _ | ⟨b, s1⟩
  · simp [read_addr, readU8, bind, Except.bind] at h
  by_cases hb1 : b = 1
  · subst hb1
    rcases s1 with _ | ⟨x0, _ | ⟨x1, _ | ⟨x2, _ | ⟨x3, s2⟩⟩⟩⟩
    · simp [read_addr, readU8, readU32be, bind, Except.bind] at h
    · simp [read_addr, readU8, readU32be, bind, Except.bind] at h
    · simp [read_addr, readU8, readU32be, bind, Except.bind] at h
    · simp [read_addr, readU8, readU32be, bind, Except.bind] at h
    rcases s2 with _ | ⟨y0, _ | ⟨y1, s3⟩⟩
    · simp [read_addr, readU8, readU32be, readU16be, bind, Except.bind] at h
    · simp [read_addr, readU8, readU32be, readU16be, bind, Except.bind] at h
    have hh : TargetAddr.Ip (.v4 (((x0 * 256 + x1) * 256 + x2) * 256 + x3)
        (y0 * 256 + y1)) = a ∧ s3 = ([] : List Nat) := by
      simpa [read_addr, readU8, readU32be, readU16be, bind, Except.bind] using h
    obtain ⟨ha', hs3⟩ := hh
    subst hs3
    constructor
    · simp
    · intro t
      simp [read_addr, readU8, readU32be, readU16be, bind, Except.bind, ha']
  by_cases hb3 : b = 3
  · subst hb3
    rcases s1 with _ | ⟨len, s2⟩
    · simp [read_addr, readU8, bind, Except.bind] at h
    by_cases hfit : s2.length < len
    · simp [read_addr, readU8, readExact, bind, Except.bind, hfit] at h
    by_cases hu : utf8Valid (s2.take len) = true
    · rcases hdrop : s2.drop len with _ | ⟨y0, _ | ⟨y1, s4⟩⟩
      · simp [read_addr, readU8, readExact, readU16be, bind, Except.bind,
          hfit, hu, hdrop] at h
      · simp [read_addr, readU8, readExact, readU16be, bind, Except.bind,
          hfit, hu, hdrop] at h
      have hh : TargetAddr.Domain (s2.take len) (y0 * 256 + y1) = a ∧
          s4 = ([] : List Nat) := by
        simpa [read_addr, readU8, readExact, readU16be, bind, Except.bind,
          hfit, hu, hdrop] using h
      obtain ⟨ha', hs4⟩ := hh
      subst hs4
      have hlen2 : s2.length = len + 2 := by
        have := congrArg List.length hdrop
        simp [List.length_drop] at this
        omega
      have hlen255 : len ≤ 255 := by
        have := hbytes len (by simp)
        omega
      constructor
      · simp
        omega
      · intro t
        have htake : (s2 ++ t).take len = s2.take len := by
          rw [List.take_append_eq_append_take]
          have : len - s2.length = 0 := by omega
          simp [this]
        have hdrop2 : (s2 ++ t).drop len = y0 :: y1 :: t := by
          rw [List.drop_append_eq_append_drop]
          have : len - s2.length = 0 := by omega
          simp [this, hdrop]
        have hfit2 : ¬(s2.length + t.length < len) := by
          omega
        simp [read_addr, readU8, readExact, readU16be, bind, Except.bind,
          hfit2, htake, hdrop2, hu, ha']
    · simp [read_addr, readU8, readExact, bind, Except.bind, hfit, hu] at h
  by_cases hb4 : b = 4
  · subst hb4
    by_cases hfit : s1.length < 16
    · simp [read_addr, readU8, readExact, bind, Except.bind, hfit] at h
    rcases hdrop : s1.drop 16 with _ | ⟨y0, _ | ⟨y1, s4⟩⟩
    · simp [read_addr, readU8, readExact, readU16be, bind, Except.bind,
        hfit, hdrop] at h
    · simp [read_addr, readU8, readExact, readU16be, bind, Except.bind,
        hfit, hdrop] at h
    have hh : TargetAddr.Ip (.v6 (s1.take 16) (y0 * 256 + y1) 0 0) = a ∧
        s4 = ([] : List Nat) := by
      simpa [read_addr, readU8, readExact, readU16be, bind, Except.bind,
        hfit, hdrop] using h
    obtain ⟨ha', hs4⟩ := hh
    subst hs4
    have hlen2 : s1.length = 18 := by
      have := congrArg List.length hdrop
      simp [List.length_drop] at this
      omega
    constructor
    · simp [hlen2]
    · intro t
      have htake : (s1 ++ t).take 16 = s1.take 16 := by
        rw [List.take_append_eq_append_take]
        have : 16 - s1.length = 0 := by omega
        simp [this]
      have hdrop2 : (s1 ++ t).drop 16 = y0 :: y1 :: t := by
        rw [List.drop_append_eq_append_drop]
        have : 16 - s1.length = 0 := by omega
        simp [this, hdrop]
      have hfit2 : ¬(s1.length + t.length < 16) := by
        omega
      simp [read_addr, readU8, readExact, readU16be, bind, Except.bind,
        hfit2, htake, hdrop2, ha']
  · simp [read_addr, readU8, bind, Except.bind, hb1, hb3, hb4] at h

/-- C1: for a delivered datagram with a valid header (zero reserved
bytes, zero fragment id, and an address field that `read_addr` parses
completely) whose payload fits in the caller's buffer, `recv_from`
returns `total_received - header_actual` where
`header_actual = 3 + ` the address-field length, and the first
returned-length bytes of the caller's buffer are exactly the payload
in order — including when spilled bytes must be shifted right and the
leftover header bytes copied to the front. -/
theorem c1_recv_payload (addrField payload buf : List Nat) (a : TargetAddr)
    (hbytes : ∀ b ∈ addrField, b < 256)
    (ha : read_addr addrField = .ok (a, []))
    (hfit : payload.length ≤ buf.length) :
    (recv_from (0 :: 0 :: 0 :: (addrField ++ payload)) buf).result =
      .ok (payload.length, a) ∧
    payload.length =
      (0 :: 0 :: 0 :: (addrField ++ payload)).length - (3 + addrField.length) ∧
    ((recv_from (0 :: 0 :: 0 :: (addrField ++ payload)) buf).buf).take
        payload.length = payload := by
  obtain ⟨hA259, hext⟩ := read_addr_exact addrField a hbytes ha
  have harith : payload.length =
      (0 :: 0 :: 0 :: (addrField ++ payload)).length - (3 + addrField.length) := by
    simp
    omega
  by_cases hc : addrField.length + payload.length + 3 ≤ 263
  · -- the whole datagram fits in the header scratch: no spill
    have hrec : recv_from (0 :: 0 :: 0 :: (addrField ++ payload)) buf =
        ⟨payload ++ buf.drop payload.length, payload.length,
         .ok (payload.length, a)⟩ := by
      simp only [recv_from]
      rw [show min (List.length (0 :: 0 :: 0 :: (addrField ++ payload)))
            (MAX_ADDR_LEN + 3 + List.length buf) =
          addrField.length + payload.length + 3 by
        simp only [List.length_cons, List.length_append, MAX_ADDR_LEN]
        omega]
      rw [show min (MAX_ADDR_LEN + 3)
            (addrField.length + payload.length + 3) =
          addrField.length + payload.length + 3 by
        simp only [MAX_ADDR_LEN]
        omega]
      rw [show addrField.length + payload.length + 3 - (MAX_ADDR_LEN + 3)
          = 0 by simp [MAX_ADDR_LEN]; omega]
      rw [show List.take (addrField.length + payload.length + 3)
            (0 :: 0 :: 0 :: (addrField ++ payload)) =
          0 :: 0 :: 0 :: (addrField ++ payload) by
        apply List.take_of_length_le
        simp]
      simp only [readU16be, readU8, List.take_zero, List.drop_zero,
        List.nil_append, hext payload]
      simp [List.take_append_drop]
    rw [hrec]
    refine ⟨rfl, harith, ?_⟩
    simp [List.take_append_eq_append_take]
  · -- the datagram spills past the header scratch
    have hP : 260 - addrField.length ≤ payload.length := by omega
    have e1 : List.take (addrField.length + payload.length - 260)
        (payload.drop (260 - addrField.length)) =
        payload.drop (260 - addrField.length) := by
      apply List.take_of_length_le
      simp
      omega
    have hrec : recv_from (0 :: 0 :: 0 :: (addrField ++ payload)) buf =
        ⟨payload ++
          (payload.drop (260 - addrField.length) ++
            buf.drop (addrField.length + payload.length - 260)).drop
            payload.length,
         payload.length, .ok (payload.length, a)⟩ := by
      simp only [recv_from]
      rw [show min (List.length (0 :: 0 :: 0 :: (addrField ++ payload)))
            (MAX_ADDR_LEN + 3 + List.length buf) =
          addrField.length + payload.length + 3 by
        simp only [List.length_cons, List.length_append, MAX_ADDR_LEN]
        omega]
      rw [show min (MAX_ADDR_LEN + 3)
            (addrField.length + payload.length + 3) =
          MAX_ADDR_LEN + 3 by
        simp only [MAX_ADDR_LEN]
        omega]
      rw [show addrField.length + payload.length + 3 - (MAX_ADDR_LEN + 3)
          = addrField.length + payload.length - 260 by
        simp only [MAX_ADDR_LEN]
        omega]
      rw [show List.take (MAX_ADDR_LEN + 3)
            (0 :: 0 :: 0 :: (addrField ++ payload)) =
          0 :: 0 :: 0 :: (addrField ++
            payload.take (260 - addrField.length)) by
        simp [MAX_ADDR_LEN, List.take_append_eq_append_take,
          List.take_of_length_le (show addrField.length ≤ 260 by omega)]]
      rw [show List.drop (MAX_ADDR_LEN + 3)
            (0 :: 0 :: 0 :: (addrField ++ payload)) =
          payload.drop (260 - addrField.length) by
        simp [MAX_ADDR_LEN, List.drop_append_eq_append_drop,
          List.drop_eq_nil_of_le (show addrField.length ≤ 260 by omega)]]
      simp only [readU16be, readU8,
        hext (payload.take (260 - addrField.length)), e1,
        List.length_take]
      rw [show min (260 - addrField.length) payload.length =
          260 - addrField.length by omega]
      set b1 := payload.drop (260 - addrField.length) ++
        buf.drop (addrField.length + payload.length - 260) with hb1
      have hb1len : b1.length = buf.length := by
        rw [hb1]
        simp
        omega
      rw [show 260 - addrField.length +
            (addrField.length + payload.length - 260) = payload.length by
        omega]
      have hl : (b1.take (260 - addrField.length)).length =
          260 - addrField.length := by
        rw [List.length_take, hb1len]
        omega
      have e4 : ∀ X : List Nat,
          (b1.take (260 - addrField.length) ++ X).drop
            (260 - addrField.length) = X := fun X => List.drop_left' hl
      have hdl : (payload.drop (260 - addrField.length)).length =
          addrField.length + payload.length - 260 := by
        simp
        omega
      have e5 : b1.take (addrField.length + payload.length - 260) =
          payload.drop (260 - addrField.length) := List.take_left' hdl
      simp only [List.append_assoc, e4, e5]
      rw [← List.append_assoc, List.take_append_drop]
      simp [List.take_append_drop]
    rw [hrec]
    refine ⟨rfl, harith, ?_⟩
    simp [List.take_append_eq_append_take]

/-- C1 witness: a concrete datagram with an IPv4 header and a 2-byte
payload received into a 3-byte buffer. -/
theorem c1_recv_payload_witness :
    (recv_from [0, 0, 0, 1, 10, 0, 0, 1, 0, 80, 9, 8] [0, 0, 0]).result =
      .ok (2, .Ip (.v4 167772161 80)) ∧
    (recv_from [0, 0, 0, 1, 10, 0, 0, 1, 0, 80, 9, 8] [0, 0, 0]).buf.take 2 =
      [9, 8] := by
  have h := c1_recv_payload [1, 10, 0, 0, 1, 0, 80] [9, 8] [0, 0, 0]
    (.Ip (.v4 167772161 80)) (by decide) (by decide) (by decide)
  exact ⟨h.1, h.2.2⟩

/-- C2: on every datagram whose header parses, the payload
reconstruction touches the caller's buffer only inside
`[0, writeEnd)` where `writeEnd` equals the returned payload length
(`rem + overflow`, the exclusive end of the `ptr::copy` destination,
covering also the `copy_from_slice` at the front); under the
precondition that the returned payload length is at most the caller
buffer's length all writes are in bounds, and there is a datagram
violating the precondition — total length `263 + buf.length` with a
10-byte actual header — whose shift destination exceeds the buffer. -/
theorem c2_recv_write_bounds (dgram buf : List Nat) (n : Nat) (a : TargetAddr)
    (h : (recv_from dgram buf).result = .ok (n, a)) (hn : n ≤ buf.length) :
    (recv_from dgram buf).writeEnd = n ∧
    (recv_from dgram buf).writeEnd ≤ buf.length ∧
    (∃ d2 b2 : List Nat, ∃ n2 : Nat, ∃ a2 : TargetAddr,
      (recv_from d2 b2).result = .ok (n2, a2) ∧
      d2.length = 263 + b2.length ∧
      b2.length < (recv_from d2 b2).writeEnd) := by
  have hw : (recv_from dgram buf).writeEnd = n := by
    simp only [recv_from] at h ⊢
    split at h
    · exact absurd h (by simp)
    · split at h
      · exact absurd h (by simp)
      · split at h
        · exact absurd h (by simp)
        · split at h
          · exact absurd h (by simp)
          · split at h
            · exact absurd h (by simp)
            · split
              · contradiction
              · exact congrArg Prod.fst (Except.ok.inj h)
  refine ⟨hw, by omega, ?_⟩
  exact ⟨[0, 0, 0, 1, 10, 0, 0, 1, 0, 80] ++ List.replicate 254 7, [0],
    254, .Ip (.v4 167772161 80), by decide, by decide, by decide⟩

/-- C2 witness: a concrete in-bounds receive. -/
theorem c2_recv_write_bounds_witness :
    (recv_from [0, 0, 0, 1, 10, 0, 0, 1, 0, 80, 9, 8] [0, 0, 0]).writeEnd = 2 ∧
    (recv_from [0, 0, 0, 1, 10, 0, 0, 1, 0, 80, 9, 8] [0, 0, 0]).writeEnd ≤ 3 := by
  have h := c2_recv_write_bounds [0, 0, 0, 1, 10, 0, 0, 1, 0, 80, 9, 8]
    [0, 0, 0] 2 (.Ip (.v4 167772161 80)) (by decide) (by decide)
  exact ⟨h.1, h.2.1⟩

/-! ## C7: text target parsing -/

/-- A successful `readNumber` consumed a prefix of radix digits. -/
theorem readNumber_chars (radix maxVal : Nat) (maxDigits : Option Nat)
    (az : Bool) (cs rest : List Char) (v : Nat)
    (h : readNumber radix maxVal maxDigits az cs = some (v, rest)) :
    ∃ ds, cs = ds ++ rest ∧ ∀ ch ∈ ds, isRadixDigit radix ch = true := by
  simp only [readNumber] at h
  split_ifs at h
  refine ⟨cs.takeWhile (isRadixDigit radix), ?_, ?_⟩
  · have hsplit := List.takeWhile_append_dropWhile (isRadixDigit radix) cs
    have hr : cs.dropWhile (isRadixDigit radix) = rest := by
      have := Option.some.inj h
      exact congrArg Prod.snd this
    rw [← hr]
    exact hsplit.symm
  · intro ch hch
    exact List.mem_takeWhile_imp hch

/-- A successful `readGivenChar` consumed exactly that character. -/
theorem readGivenChar_eq (c : Char) (cs rest : List Char)
    (h : readGivenChar c cs = some rest) : cs = c :: rest := by
  rcases cs with _ | ⟨x, r⟩
  · simp [readGivenChar] at h
  · simp only [readGivenChar] at h
    split_ifs at h with hx
    rw [hx, Option.some.inj h]

/-- A successful `read_ipv4_addr` consumed only decimal digits and
dots. -/
theorem read_ipv4_addr_chars (cs rest : List Char) (o : Nat × Nat × Nat × Nat)
    (h : read_ipv4_addr cs = some (o, rest)) :
    ∃ pre, cs = pre ++ rest ∧
      ∀ ch ∈ pre, isRadixDigit 10 ch = true ∨ ch = '.' := by
  unfold read_ipv4_addr at h
  rcases h1 : readNumber 10 255 (some 3) false cs with _ | ⟨a1, cs1⟩
  · simp [h1, bind, Option.bind] at h
  simp only [h1, bind, Option.bind] at h
  rcases h2 : readGivenChar '.' cs1 with _ | cs2
  · simp [h2, bind, Option.bind] at h
  simp only [h2, bind, Option.bind] at h
  rcases h3 : readNumber 10 255 (some 3) false cs2 with _ | ⟨a2, cs3⟩
  · simp [h3, bind, Option.bind] at h
  simp only [h3, bind, Option.bind] at h
  rcases h4 : readGivenChar '.' cs3 with _ | cs4
  · simp [h4, bind, Option.bind] at h
  simp only [h4, bind, Option.bind] at h
  rcases h5 : readNumber 10 255 (some 3) false cs4 with _ | ⟨a3, cs5⟩
  · simp [h5, bind, Option.bind] at h
  simp only [h5, bind, Option.bind] at h
  rcases h6 : readGivenChar '.' cs5 with _ | cs6
  · simp [h6, bind, Option.bind] at h
  simp only [h6, bind, Option.bind] at h
  rcases h7 : readNumber 10 255 (some 3) false cs6 with _ | ⟨a4, cs7⟩
  · simp [h7, bind, Option.bind] at h
  simp only [h7, bind, Option.bind] at h
  have hrest : cs7 = rest := by
    have := Option.some.inj h
    exact congrArg Prod.snd this
  obtain ⟨d1, hd1, hc1⟩ := readNumber_chars _ _ _ _ _ _ _ h1
  obtain ⟨d2, hd2, hc2⟩ := readNumber_chars _ _ _ _ _ _ _ h3
  obtain ⟨d3, hd3, hc3⟩ := readNumber_chars _ _ _ _ _ _ _ h5
  obtain ⟨d4, hd4, hc4⟩ := readNumber_chars _ _ _ _ _ _ _ h7
  have hg2 := readGivenChar_eq _ _ _ h2
  have hg4 := readGivenChar_eq _ _ _ h4
  have hg6 := readGivenChar_eq _ _ _ h6
  refine ⟨d1 ++ '.' :: d2 ++ '.' :: d3 ++ '.' :: d4, ?_, ?_⟩
  · subst hrest
    rw [hd1, hg2, hd2, hg4, hd3, hg6, hd4]
    simp
  · intro ch hch
    simp only [List.mem_append, List.mem_cons] at hch
    have hsplit : (ch ∈ d1 ∨ ch ∈ d2 ∨ ch ∈ d3 ∨ ch ∈ d4) ∨ ch = '.' := by
      tauto
    rcases hsplit with h' | h'
    · rcases h' with h' | h' | h' | h'
      · exact Or.inl (hc1 ch h')
      · exact Or.inl (hc2 ch h')
      · exact Or.inl (hc3 ch h')
      · exact Or.inl (hc4 ch h')
    · exact Or.inr h'

/-- A string that parses as a bare IPv4 literal contains no colon. -/
theorem parseIpv4_no_colon (host : List Char) (ip : Nat)
    (h : parseIpv4 host = some ip) : ':' ∉ host := by
  unfold parseIpv4 at h
  rcases h4 : read_ipv4_addr host with _ | ⟨o, rest⟩ <;> rw [h4] at h
  · simp at h
  rcases rest with _ | ⟨x, r⟩
  · obtain ⟨pre, hpre, hch⟩ := read_ipv4_addr_chars _ _ _ h4
    rw [hpre]
    simp only [List.append_nil]
    intro hmem
    rcases hch ':' hmem with hd | hd
    · exact absurd hd (by decide)
    · exact absurd hd (by decide)
  · simp at h

/-- Every character of a string that parses as a `u16` digit run is a
decimal digit. -/
theorem parseU16core_digits (b : Bool) (ds : List Char) (p : Nat)
    (hc : parseU16core b ds = some p) :
    ∀ ch ∈ ds, isRadixDigit 10 ch = true := by
  intro ch hmem
  unfold parseU16core at hc
  split_ifs at hc with h1 h2 h3 h4 h5
  all_goals exact List.all_eq_true.mp h2 ch hmem

/-- A string that parses as a `u16` contains no colon. -/
theorem parseU16_no_colon (s : List Char) (p : Nat)
    (h : parseU16 s = some p) : ':' ∉ s := by
  rcases s with _ | ⟨c, ds⟩
  · simp
  · simp only [parseU16] at h
    split_ifs at h with hc1 hc2
    · intro hmem
      rcases List.mem_cons.mp hmem with h' | h'
      · rw [hc1] at h'
        exact absurd h' (by decide)
      · exact absurd (parseU16core_digits true ds p h ':' h') (by decide)
    · intro hmem
      rcases List.mem_cons.mp hmem with h' | h'
      · rw [hc2] at h'
        exact absurd h' (by decide)
      · exact absurd (parseU16core_digits false ds p h ':' h') (by decide)
    · intro hmem
      exact absurd (parseU16core_digits true (c :: ds) p h ':' hmem)
        (by decide)

/-- `rsplitn(2, sep)` on a string without the separator yields the
whole string and no left part. -/
theorem rsplit2_no_sep (sep : Char) (r : List Char) (h : sep ∉ r) :
    rsplit2 sep r = (r, none) := by
  induction r with
  | nil => simp [rsplit2]
  | cons c rest ih =>
    have hc : ¬c = sep := by
      intro he
      exact h (he ▸ List.mem_cons_self c rest)
    have hr : sep ∉ rest := fun hm => h (List.mem_cons_of_mem c hm)
    simp [rsplit2, ih hr, hc]

/-- `rsplitn(2, sep)` splits at the rightmost separator: when the part
after it is separator-free, the right piece and the left piece are
recovered exactly. -/
theorem rsplit2_split (sep : Char) (l r : List Char) (h : sep ∉ r) :
    rsplit2 sep (l ++ sep :: r) = (r, some l) := by
  induction l with
  | nil => simp [rsplit2, rsplit2_no_sep sep r h]
  | cons c rest ih => simp [rsplit2, ih]

/-- C7: `<&str as ToTargetAddr>::to_target_addr` follows the ordered
rules — a literal `SocketAddrV4` or `SocketAddrV6` endpoint becomes
`Ip`; otherwise the string is split at the rightmost `:`, failing with
`InvalidSocksAddress` when there is none; the right side must parse as
a `u16` or the error is `InvalidPortValue`; a left side that is a bare
IPv4 or IPv6 literal is promoted to `Ip`, and any other left side
becomes `Domain(left, port)` — and for every text `HOST:PORT` with
`HOST` a valid IPv4 literal and `PORT` a valid port the result is an
`Ip`, never a `Domain`. -/
theorem c7_from_text (s host portStr : List Char) (port ip4 : Nat)
    (ip6 : List Nat)
    (h1 : parseSocketAddrV4 s = none)
    (h2 : parseSocketAddrV6 s = none) :
    (':' ∉ s →
      strToTargetAddr s = .error (.sockErr (.InvalidSocksAddress s))) ∧
    (∀ p hs, rsplit2 ':' s = (p, some hs) → parseU16 p = none →
      strToTargetAddr s = .error (.sockErr (.InvalidPortValue s p))) ∧
    (∀ p hs, rsplit2 ':' s = (p, some hs) → parseU16 p = some port →
      parseIpv4 hs = some ip4 →
      strToTargetAddr s = .ok (.Ip (.v4 ip4 port))) ∧
    (∀ p hs, rsplit2 ':' s = (p, some hs) → parseU16 p = some port →
      parseIpv4 hs = none → parseIpv6 hs = some ip6 →
      strToTargetAddr s = .ok (.Ip (.v6 ip6 port 0 0))) ∧
    (∀ p hs, rsplit2 ':' s = (p, some hs) → parseU16 p = some port →
      parseIpv4 hs = none → parseIpv6 hs = none →
      strToTargetAddr s = .ok (.Domain (strBytes hs) port)) ∧
    (∀ s2 : List Char, ∀ v : Nat × Nat, parseSocketAddrV4 s2 = some v →
      strToTargetAddr s2 = .ok (.Ip (.v4 v.1 v.2))) ∧
    (∀ s3 : List Char, ∀ w : List Nat × Nat × Nat,
      parseSocketAddrV4 s3 = none → parseSocketAddrV6 s3 = some w →
      strToTargetAddr s3 = .ok (.Ip (.v6 w.1 w.2.1 0 w.2.2))) ∧
    (parseIpv4 host = some ip4 → parseU16 portStr = some port →
      ∃ sa : SockAddr,
        strToTargetAddr (host ++ ':' :: portStr) = .ok (.Ip sa)) := by
  refine ⟨?_, ?_, ?_, ?_, ?_, ?_, ?_, ?_⟩
  · intro hnc
    simp [strToTargetAddr, h1, h2, rsplit2_no_sep ':' s hnc]
  · intro p hs heq hport
    simp [strToTargetAddr, h1, h2, heq, hport]
  · intro p hs heq hport hip
    simp [strToTargetAddr, hostPortToTargetAddr, h1, h2, heq, hport, hip]
  · intro p hs heq hport hip4 hip6
    simp [strToTargetAddr, hostPortToTargetAddr, h1, h2, heq, hport,
      hip4, hip6]
  · intro p hs heq hport hip4 hip6
    simp [strToTargetAddr, hostPortToTargetAddr, h1, h2, heq, hport,
      hip4, hip6]
  · intro s2 v hv
    simp [strToTargetAddr, hv]
  · intro s3 w hv4 hv6
    simp [strToTargetAddr, hv4, hv6]
  · intro hip hport
    rcases hv4 : parseSocketAddrV4 (host ++ ':' :: portStr) with _ | v
    · rcases hv6 : parseSocketAddrV6 (host ++ ':' :: portStr) with _ | w
      · have hncp : ':' ∉ portStr := parseU16_no_colon portStr port hport
        refine ⟨.v4 ip4 port, ?_⟩
        simp [strToTargetAddr, hostPortToTargetAddr, hv4, hv6,
          rsplit2_split ':' host portStr hncp, hport, hip]
      · refine ⟨.v6 w.1 w.2.1 0 w.2.2, ?_⟩
        simp [strToTargetAddr, hv4, hv6]
    · refine ⟨.v4 v.1 v.2, ?_⟩
      simp [strToTargetAddr, hv4]

/-- C7 witness: `"a"` has no colon and fails; `"[::1]:80"` is a
literal IPv6 endpoint; `"::1:80"` promotes its left side `"::1"` to an
IPv6 `Ip`; `"1.2.3.4:80"` is promoted to an IPv4 `Ip`. -/
theorem c7_from_text_witness :
    strToTargetAddr ['a'] =
      .error (.sockErr (.InvalidSocksAddress ['a'])) ∧
    strToTargetAddr ['[', ':', ':', '1', ']', ':', '8', '0'] =
      .ok (.Ip (.v6 [0, 0, 0, 0, 0, 0, 0, 0, 0, 0, 0, 0, 0, 0, 0, 1]
        80 0 0)) ∧
    strToTargetAddr ([':', ':', '1'] ++ ':' :: ['8', '0']) =
      .ok (.Ip (.v6 [0, 0, 0, 0, 0, 0, 0, 0, 0, 0, 0, 0, 0, 0, 0, 1]
        80 0 0)) ∧
    (∃ sa : SockAddr,
      strToTargetAddr (['1', '.', '2', '.', '3', '.', '4'] ++
        ':' :: ['8', '0']) = .ok (.Ip sa)) := by
  have h := c7_from_text ['a'] ['1', '.', '2', '.', '3', '.', '4']
    ['8', '0'] 80 16909060 [0, 0, 0, 0, 0, 0, 0, 0, 0, 0, 0, 0, 0, 0, 0, 1]
    (by decide) (by decide)
  have h6 := c7_from_text ([':', ':', '1'] ++ ':' :: ['8', '0'])
    [':', ':', '1'] ['8', '0'] 80 16909060
    [0, 0, 0, 0, 0, 0, 0, 0, 0, 0, 0, 0, 0, 0, 0, 1]
    (by decide) (by decide)
  refine ⟨h.1 (by decide), ?_, ?_, h.2.2.2.2.2.2.2 (by decide) (by decide)⟩
  · exact h.2.2.2.2.2.2.1 ['[', ':', ':', '1', ']', ':', '8', '0']
      ([0, 0, 0, 0, 0, 0, 0, 0, 0, 0, 0, 0, 0, 0, 0, 1], 80, 0)
      (by decide) (by decide)
  · exact h6.2.2.2.1 ['8', '0'] [':', ':', '1'] (by decide) (by decide)
      (by decide) (by decide)

end Socks2
